import Mathlib

/-!
Verification of the MindCanvus backend's core logic: the friend-request
relationship handlers (backend/routes/friends.js), the scheduled-post
publisher (backend/server.js cron job), the post like/fetch routes
(backend/routes/posts.js), and direct-message sending
(backend/routes/messages.js).  Users are modelled as documents in a store
keyed by user id; each route handler becomes a pure function from the store
to either an error response or an updated store.
-/

/-- User ids (Mongo ObjectIds) are modelled as naturals. -/
abbrev UserId := Nat

/-- Status values of the friendRequests sub-document enum
(pending | accepted | rejected). -/
inductive ReqStatus where
  | pending
  | accepted
  | rejected
deriving DecidableEq, Repr

/-- One entry of a user's friendRequests array: { from, status }. -/
structure FriendRequest where
  fromId : UserId
  status : ReqStatus
deriving DecidableEq, Repr

/-- The relationship-relevant part of a User document:
the friends array and the friendRequests array. -/
structure UserDoc where
  friends : List UserId
  friendRequests : List FriendRequest
deriving DecidableEq, Repr

/-- The user store: User.findById id = state id. -/
abbrev UserState := UserId → Option UserDoc

/-- Persisting one user document (doc.save()). -/
def setUser (s : UserState) (id : UserId) (u : UserDoc) : UserState :=
  fun x => if x = id then some u else s x

/-- Error responses of the friend routes, one constructor per distinct
status/message the handlers return. -/
inductive FriendErr where
  /-- 400 You cannot send friend request to yourself -/
  | invalidTarget
  /-- 404 User not found -/
  | userNotFound
  /-- 404 Current user not found -/
  | currentUserNotFound
  /-- 400 Already friends with this user / Users are already friends -/
  | alreadyFriends
  /-- 400 Friend request already sent -/
  | duplicateRequest
  /-- 404 Friend request not found -/
  | requestNotFound
  /-- 400 Friend request already processed -/
  | alreadyProcessed
  /-- 400 Not friends with this user -/
  | notFriends
  /-- 500 Server error (a thrown null dereference caught at the boundary) -/
  | serverError
deriving DecidableEq, Repr

/-- POST /api/friends/request/:userId (friends.js).
Checks in source order: self-target, target existence, requester's own
friends list, then an existing request from the requester on the target's
record (found by from only, with no status filter); on success pushes
a pending entry onto the target's friendRequests and saves the target. -/
def sendRequest (s : UserState) (me target : UserId) :
    Except FriendErr UserState :=
  if target = me then .error .invalidTarget
  else
    match s target with
    | none => .error .userNotFound
    | some targetUser =>
      match s me with
      | none => .error .serverError
      | some currentUser =>
        if target ∈ currentUser.friends then .error .alreadyFriends
        else if targetUser.friendRequests.any (fun r => r.fromId = me) then
          .error .duplicateRequest
        else
          .ok (setUser s target
            { targetUser with
              friendRequests :=
                targetUser.friendRequests ++ [⟨me, .pending⟩] })

/-- PUT /api/friends/accept/:userId (friends.js).
Loads both users (404 for each), finds the first request entry from the
requester (any status), rejects non-pending entries, applies the defensive
already-friends check on both sides, then pushes each id into the other's
friends, filters every request from the requester out of the accepter's
friendRequests and saves both documents (the requester's save last). -/
def acceptRequest (s : UserState) (me requester : UserId) :
    Except FriendErr UserState :=
  match s requester with
  | none => .error .userNotFound
  | some requestingUser =>
    match s me with
    | none => .error .currentUserNotFound
    | some currentUser =>
      match currentUser.friendRequests.find? (fun r => r.fromId = requester) with
      | none => .error .requestNotFound
      | some fr =>
        if fr.status ≠ .pending then .error .alreadyProcessed
        else if requester ∈ currentUser.friends ∨ me ∈ requestingUser.friends then
          .error .alreadyFriends
        else
          .ok (setUser
            (setUser s me
              { currentUser with
                friends := currentUser.friends ++ [requester],
                friendRequests :=
                  currentUser.friendRequests.filter
                    (fun r => ¬ r.fromId = requester) })
            requester
            { requestingUser with
              friends := requestingUser.friends ++ [me] })

/-- Mutation friendRequest.status = rejected performed by the reject
handler: it rewrites the status of the first entry whose from matches the
requester and leaves the rest of the array alone. -/
def markRejected : List FriendRequest → UserId → List FriendRequest
  | [], _ => []
  | r :: rs, q =>
    if r.fromId = q then { r with status := .rejected } :: rs
    else r :: markRejected rs q

/-- PUT /api/friends/reject/:userId (friends.js).
Finds the first request entry from the requester (any status); 404 if
absent, 400 if not pending; otherwise sets that entry's status to
rejected and saves — the entry is retained, not removed. -/
def rejectRequest (s : UserState) (me requester : UserId) :
    Except FriendErr UserState :=
  match s me with
  | none => .error .serverError
  | some currentUser =>
    match currentUser.friendRequests.find? (fun r => r.fromId = requester) with
    | none => .error .requestNotFound
    | some fr =>
      if fr.status ≠ .pending then .error .alreadyProcessed
      else
        .ok (setUser s me
          { currentUser with
            friendRequests := markRejected currentUser.friendRequests requester })

/-- DELETE /api/friends/request/:userId (friends.js), cancel.
404 if the target does not exist; otherwise filters every request entry
authored by the requester out of the target's friendRequests (any status)
and saves, succeeding even when nothing matched. -/
def cancelRequest (s : UserState) (me target : UserId) :
    Except FriendErr UserState :=
  match s target with
  | none => .error .userNotFound
  | some targetUser =>
    .ok (setUser s target
      { targetUser with
        friendRequests :=
          targetUser.friendRequests.filter (fun r => ¬ r.fromId = me) })

/-- DELETE /api/friends/:userId (friends.js), remove friend.
404 if the other user does not exist, 400 if not in the caller's friends;
otherwise filters each id out of the other's friends list and saves the
caller first, then the other user. -/
def removeFriend (s : UserState) (me target : UserId) :
    Except FriendErr UserState :=
  match s target with
  | none => .error .userNotFound
  | some friendUser =>
    match s me with
    | none => .error .serverError
    | some currentUser =>
      if target ∉ currentUser.friends then .error .notFriends
      else
        .ok (setUser
          (setUser s me
            { currentUser with
              friends := currentUser.friends.filter (fun x => ¬ x = target) })
          target
          { friendUser with
            friends := friendUser.friends.filter (fun x => ¬ x = me) })

/-- Post status enum (draft | published | scheduled). -/
inductive PostStatus where
  | draft
  | published
  | scheduled
deriving DecidableEq, Repr

/-- The part of a Post document the verified routes read and write.
Timestamps are naturals; likes keeps the user field of each likes entry
in array order; views is the monotonic view counter. -/
structure PostDoc where
  pid : Nat
  status : PostStatus
  scheduledFor : Option Nat
  publishedAt : Option Nat
  likes : List UserId
  views : Nat
deriving DecidableEq, Repr

/-- Whether a post matches the publisher's due-query at time now.
Modelled from the spec: Post.getScheduledPostsToPublish is declared on the
Post model, whose source file is not in the repository snapshot; the spec
defines the tick query as all posts with status=scheduled and
scheduledFor <= now (a post with no scheduledFor cannot satisfy the
comparison and is not selected). -/
def isDue (now : Nat) (p : PostDoc) : Bool :=
  decide (p.status = PostStatus.scheduled) &&
    match p.scheduledFor with
    | some t => decide (t ≤ now)
    | none => false

/-- The published version of a due post: status=published,
publishedAt=now, everything else untouched. -/
def publishPost (now : Nat) (p : PostDoc) : PostDoc :=
  { p with status := .published, publishedAt := some now }

/-- One cron tick of the scheduled-post publisher (server.js).
The handler queries the due posts, then runs one for-loop over them with
a single try/catch around the whole loop: each due post is set to
published and saved in turn, and a save that throws (post ids in fails)
leaves that post unsaved and aborts the loop, so every later post —
due or not — is left as it was.  Posts not matched by the query are
never touched. -/
def publisherTick (now : Nat) (fails : Nat → Bool) :
    List PostDoc → List PostDoc
  | [] => []
  | p :: ps =>
    if isDue now p then
      if fails p.pid then p :: ps
      else publishPost now p :: publisherTick now fails ps
    else p :: publisherTick now fails ps

/-- A tick on which every save succeeds. -/
def publisherTickOk (now : Nat) (posts : List PostDoc) : List PostDoc :=
  publisherTick now (fun _ => false) posts

/-- commentSchema.methods.toggleLike (models/Comment.js), the like-flip
shared by posts: findIndex of the caller among likes; if found, splice
that entry out and report false, else push the caller and report true.
The Post model file is not in the repository snapshot; Post.toggleLike is
modelled from the spec (toggle like: idempotent flip, returns new boolean
state + count) with models/Comment.js giving the exact mechanism. -/
def toggleLike (u : UserId) (likes : List UserId) : Bool × List UserId :=
  if u ∈ likes then (false, likes.erase u)
  else (true, likes ++ [u])

/-- Error responses of the verified post routes. -/
inductive PostErr where
  /-- 404 Post not found -/
  | postNotFound
deriving DecidableEq, Repr

/-- The JSON body of a like-toggle response: isLiked and likesCount. -/
structure LikeResponse where
  isLiked : Bool
  likesCount : Nat
deriving DecidableEq, Repr

/-- POST /api/posts/:id/like (routes/posts.js).
404 if the post is missing; otherwise toggles the caller's like, saves,
and answers with the new boolean state and the new likesCount
(the likes-array length after the flip). -/
def likePost (posts : List PostDoc) (pid : Nat) (u : UserId) :
    Except PostErr (LikeResponse × List PostDoc) :=
  match posts.find? (fun p => p.pid = pid) with
  | none => .error .postNotFound
  | some post =>
    let r := toggleLike u post.likes
    let post' := { post with likes := r.2 }
    .ok (⟨r.1, r.2.length⟩,
      posts.map (fun q => if q.pid = pid then post' else q))

/-- GET /api/posts/:id (routes/posts.js).
The handler has no auth middleware and reads nothing about the caller:
it looks the post up by id alone, answers 404 only when the id is
missing, and otherwise increments the view counter and returns the full
post whatever its status or visibility.  Post.incrementViews is modelled
from the spec: the Post model file is not in the repository snapshot and
the spec defines it as a bare increment of the views counter with no
per-viewer dedup. -/
def getPost (posts : List PostDoc) (pid : Nat) :
    Except PostErr (PostDoc × List PostDoc) :=
  match posts.find? (fun p => p.pid = pid) with
  | none => .error .postNotFound
  | some post =>
    let post' := { post with views := post.views + 1 }
    .ok (post', posts.map (fun q => if q.pid = pid then post' else q))

/-- A direct-message document: sender, recipient, content, read flag. -/
structure MessageDoc where
  sender : UserId
  recipient : UserId
  content : String
  read : Bool
deriving DecidableEq, Repr

/-- Error responses of the message-send route. -/
inductive MsgErr where
  /-- 400 Validation failed -/
  | validation
  /-- 404 Recipient not found -/
  | recipientNotFound
  /-- 403 You can only message your friends -/
  | forbidden
  /-- 500 Server error sending message: Message.create throws the
  schema's required-content validation error (models/Message.js) when
  the stored content is empty after trimming, and the handler's catch
  maps it to 500 with no message created -/
  | serverError
deriving DecidableEq, Repr

/-- Whitespace as stripped by the validator's trim sanitizer. -/
def isSpaceChar (c : Char) : Bool :=
  c = ' ' || c = '\t' || c = '\n' || c = '\r'

/-- The trim sanitizer of the validator chain: strip leading and
trailing whitespace from the content string. -/
def trimContent (str : String) : String :=
  ⟨((str.data.dropWhile isSpaceChar).reverse.dropWhile
      isSpaceChar).reverse⟩

/-- POST /api/messages/:userId (routes/messages.js).
Validator chain first (notEmpty on the raw body, then trim, then max
length 2000 on the trimmed content); then recipient existence (404);
then the friendship check made against the sender's own friends array
only; then Message.create, which throws the schema's required-content
validation error (models/Message.js) when the trimmed content is empty
— whitespace-only input slips past notEmpty but dies there, answered
as 500 with nothing created; otherwise a message with read=false is
appended to the store.  The sender's document is the one the auth
middleware loaded (meU). -/
def sendMessage (s : UserState) (me : UserId) (meU : UserDoc)
    (target : UserId) (content : String) (msgs : List MessageDoc) :
    Except MsgErr (List MessageDoc) :=
  if content = "" ∨ (trimContent content).length > 2000 then .error .validation
  else
    match s target with
    | none => .error .recipientNotFound
    | some _ =>
      if meU.friends.any (fun f => f = target) then
        if trimContent content = "" then .error .serverError
        else .ok (msgs ++ [⟨me, target, (trimContent content), false⟩])
      else .error .forbidden

/-! ## Shared helper lemmas -/

/-- Success inversion for sendRequest: everything the handler checked on
the way to the save. -/
theorem sendRequest_ok_inv {s : UserState} {me target : UserId} {s' : UserState}
    (h : sendRequest s me target = .ok s') :
    target ≠ me ∧
      ∃ tU meU, s target = some tU ∧ s me = some meU ∧
        target ∉ meU.friends ∧
        tU.friendRequests.any (fun r => r.fromId = me) = false ∧
        s' = setUser s target
          { tU with friendRequests := tU.friendRequests ++ [⟨me, .pending⟩] } := by
  unfold sendRequest at h
  split at h
  · exact absurd h (by simp)
  · rename_i hne
    refine ⟨fun hc => hne (hc ▸ rfl), ?_⟩
    rcases ht : s target with _ | tU
    · rw [ht] at h; exact absurd h (by simp)
    · rw [ht] at h
      rcases hm : s me with _ | meU
      · rw [hm] at h; exact absurd h (by simp)
      · rw [hm] at h
        refine ⟨tU, meU, rfl, rfl, ?_⟩
        by_cases hf : target ∈ meU.friends
        · simp [hf] at h
        · simp only [hf, if_false] at h
          by_cases hd : tU.friendRequests.any (fun r => r.fromId = me)
          · simp [hd] at h
          · simp only [hd, if_false] at h
            refine ⟨hf, by simpa using hd, ?_⟩
            cases h
            rfl

/-! ## C3: send-request error cases -/

/-- C3 (amended): for every requester and target, Send fails with
InvalidTarget when requester equals target, with NotFound when the target
does not exist, with AlreadyFriends when the target is already in the
requester's friends, and with DuplicateRequest when ANY request entry
from the requester — pending or not — exists on the target's record; only
when no entry at all from the requester is present does it succeed,
appending a pending entry to the target's friendRequests and changing
nothing else. -/
theorem sendRequest_error_cases (s : UserState) (me target : UserId) :
    (target = me → sendRequest s me target = .error .invalidTarget) ∧
    (target ≠ me → s target = none →
      sendRequest s me target = .error .userNotFound) ∧
    (∀ tU meU, target ≠ me → s target = some tU → s me = some meU →
      ((target ∈ meU.friends →
          sendRequest s me target = .error .alreadyFriends) ∧
       (target ∉ meU.friends → (∃ r ∈ tU.friendRequests, r.fromId = me) →
          sendRequest s me target = .error .duplicateRequest) ∧
       (target ∉ meU.friends → (∀ r ∈ tU.friendRequests, r.fromId ≠ me) →
          sendRequest s me target =
            .ok (setUser s target
              { tU with friendRequests :=
                  tU.friendRequests ++ [⟨me, .pending⟩] })))) := by
  refine ⟨fun h => by simp [sendRequest, h], fun hne ht => ?_, ?_⟩
  · simp [sendRequest, hne, ht]
  · intro tU meU hne ht hm
    refine ⟨fun hf => by simp [sendRequest, hne, ht, hm, hf], ?_, ?_⟩
    · intro hf hdup
      have hany : tU.friendRequests.any (fun r => r.fromId = me) = true := by
        simpa using hdup
      simp [sendRequest, hne, ht, hm, hf, hany]
    · intro hf hnodup
      have hany : tU.friendRequests.any (fun r => r.fromId = me) = false := by
        simp only [List.any_eq_false, decide_eq_true_eq]
        exact hnodup
      simp [sendRequest, hne, ht, hm, hf, hany]

/-- The concrete store refuting C3 as stated: user 1's record carries a
rejected (hence non-pending) request entry from user 0. -/
def rejectedEntryState : UserState := fun id =>
  if id = 0 then some ⟨[], []⟩
  else if id = 1 then some ⟨[], [⟨0, .rejected⟩]⟩
  else none

/-- C3 counterexample: in rejectedEntryState, requester 0 and target 1 are
distinct, target 1 exists, 1 is not among 0's friends, and no PENDING
request from 0 sits on 1's record — the claim says Send succeeds — yet the
handler answers DuplicateRequest, because its duplicate check ignores the
status of the stored entry. -/
theorem sendRequest_error_cases_cex :
    (0 : UserId) ≠ 1 ∧
    rejectedEntryState 1 = some ⟨[], [⟨0, .rejected⟩]⟩ ∧
    rejectedEntryState 0 = some ⟨[], []⟩ ∧
    (∀ r ∈ [FriendRequest.mk 0 .rejected],
      ¬ (r.fromId = 0 ∧ r.status = .pending)) ∧
    sendRequest rejectedEntryState 0 1 = .error .duplicateRequest :=
  ⟨by decide, rfl, rfl, by decide, rfl⟩

/-- C3 witness: the success branch of sendRequest_error_cases at a
concrete store with two unrelated users. -/
theorem sendRequest_error_cases_witness :
    sendRequest
      (fun id => if id ≤ 1 then some ⟨[], []⟩ else none) 0 1 =
      .ok (setUser
        (fun id => if id ≤ 1 then some ⟨[], []⟩ else none) 1
        ⟨[], [⟨0, .pending⟩]⟩) :=
  (((sendRequest_error_cases
      (fun id => if id ≤ 1 then some ⟨[], []⟩ else none) 0 1).2.2
    ⟨[], []⟩ ⟨[], []⟩ (by decide) rfl rfl).2.2 (by decide) (by decide))

/-! ## C2: reject retains the request record -/

theorem setUser_same (s : UserState) (id : UserId) (u : UserDoc) :
    setUser s id u id = some u := by simp [setUser]

theorem setUser_other (s : UserState) {id x : UserId} (u : UserDoc)
    (h : x ≠ id) : setUser s id u x = s x := by simp [setUser, h]

/-- markRejected rewrites the status of exactly the entry find? located. -/
theorem markRejected_find? {l : List FriendRequest} {q : UserId}
    {fr : FriendRequest}
    (h : l.find? (fun r => r.fromId = q) = some fr) :
    (markRejected l q).find? (fun r => r.fromId = q) =
      some { fr with status := .rejected } := by
  induction l with
  | nil => simp at h
  | cons r rs ih =>
    by_cases hr : r.fromId = q
    · rw [List.find?_cons_of_pos _ (by simpa using hr)] at h
      cases h
      simp only [markRejected, if_pos hr]
      exact List.find?_cons_of_pos _ (by simpa using hr)
    · rw [List.find?_cons_of_neg _ (by simpa using hr)] at h
      simp only [markRejected, if_neg hr]
      rw [List.find?_cons_of_neg _ (by simpa using hr)]
      exact ih h

/-- C2 (amended): rejecting a pending friend request does NOT return the
(requester, target) pair to NONE.  The request record is retained with
status rejected; a subsequent resend by the requester (their record
existing and the pair not being friends) fails with DuplicateRequest,
because the send-side duplicate check ignores status; and a subsequent
accept attempt on the same pair fails with AlreadyProcessed (400), not
NotFound. -/
theorem rejectRequest_retains_record (s : UserState) (me requester : UserId)
    (meU rU : UserDoc) (fr : FriendRequest)
    (hme : s me = some meU) (hreq : s requester = some rU)
    (hfind : meU.friendRequests.find? (fun r => r.fromId = requester) = some fr)
    (hpend : fr.status = .pending)
    (hne : requester ≠ me) (hnf : me ∉ rU.friends) :
    ∃ s', rejectRequest s me requester = .ok s' ∧
      (∃ u, s' me = some u ∧
        ∃ r ∈ u.friendRequests, r.fromId = requester ∧ r.status = .rejected) ∧
      sendRequest s' requester me = .error .duplicateRequest ∧
      acceptRequest s' me requester = .error .alreadyProcessed := by
  refine ⟨setUser s me
    { meU with friendRequests := markRejected meU.friendRequests requester },
    ?_, ?_, ?_, ?_⟩
  · unfold rejectRequest
    rw [hme]
    simp [hfind, hpend]
  · refine ⟨_, setUser_same s me _, ?_⟩
    have h2 := markRejected_find? hfind
    refine ⟨{ fr with status := .rejected },
      List.mem_of_find?_eq_some h2, ?_, rfl⟩
    simpa using List.find?_some h2
  · have hdup : (markRejected meU.friendRequests requester).any
        (fun r => r.fromId = requester) = true := by
      have h2 := markRejected_find? hfind
      have hp := List.find?_some h2
      exact List.any_eq_true.2
        ⟨_, List.mem_of_find?_eq_some h2, hp⟩
    unfold sendRequest
    rw [if_neg (fun hc => hne hc.symm), setUser_same,
      setUser_other s _ hne, hreq]
    simp [hnf, hdup]
  · unfold acceptRequest
    rw [setUser_other s _ hne, hreq, setUser_same]
    have h2 := markRejected_find? hfind
    simp only [h2]
    simp

/-- The concrete store for the C2 scenario: user 0 holds a pending
request from user 1. -/
def pendingPairState : UserState := fun id =>
  if id = 0 then some ⟨[], [⟨1, .pending⟩]⟩
  else if id = 1 then some ⟨[], []⟩
  else none

/-- User 0's record after rejecting user 1's request. -/
def afterRejectState : UserState :=
  setUser pendingPairState 0 ⟨[], [⟨1, .rejected⟩]⟩

/-- C2 counterexample: rejecting the pending request from 1 leaves the
record on 0's document with status rejected (not deleted); the immediate
resend by 1 then fails with DuplicateRequest instead of succeeding, and
the subsequent accept attempt fails with AlreadyProcessed (400), not
NotFound. -/
theorem rejectRequest_retains_record_cex :
    rejectRequest pendingPairState 0 1 = .ok afterRejectState ∧
    afterRejectState 0 = some ⟨[], [⟨1, .rejected⟩]⟩ ∧
    sendRequest afterRejectState 1 0 = .error .duplicateRequest ∧
    acceptRequest afterRejectState 0 1 = .error .alreadyProcessed :=
  ⟨rfl, rfl, rfl, rfl⟩

/-- C2 witness: the amended theorem applied to the concrete
pendingPairState scenario. -/
theorem rejectRequest_retains_record_witness :
    ∃ s', rejectRequest pendingPairState 0 1 = .ok s' ∧
      (∃ u, s' 0 = some u ∧
        ∃ r ∈ u.friendRequests, r.fromId = 1 ∧ r.status = .rejected) ∧
      sendRequest s' 1 0 = .error .duplicateRequest ∧
      acceptRequest s' 0 1 = .error .alreadyProcessed :=
  rejectRequest_retains_record pendingPairState 0 1
    ⟨[], [⟨1, .pending⟩]⟩ ⟨[], []⟩ ⟨1, .pending⟩
    rfl rfl (by decide) rfl (by decide) (by decide)

/-! ## C1: accept success conditions -/

/-- A store refuting C1 as stated: user 0 holds a pending request from
user 1 and user 1's record exists, yet user 1 already sits in user 0's
friends (the state reachable when both users requested each other and one
side accepted first). -/
def onesidedFriendState : UserState := fun id =>
  if id = 0 then some ⟨[1], [⟨1, .pending⟩]⟩
  else if id = 1 then some ⟨[], []⟩
  else none

/-- C1 counterexample: a pending request from 1 exists on 0's record and
1's user record exists — the claim says Accept succeeds — yet the handler
answers AlreadyFriends (400) through its defensive friendship check. -/
theorem acceptRequest_pending_succeeds_cex :
    onesidedFriendState 0 = some ⟨[1], [⟨1, .pending⟩]⟩ ∧
    onesidedFriendState 1 = some ⟨[], []⟩ ∧
    acceptRequest onesidedFriendState 0 1 = .error .alreadyFriends :=
  ⟨rfl, rfl, rfl⟩

/-- C1 (amended): for every two distinct users, if the first request
entry from the requester on the accepter's record is pending, the
requester's user record exists, and neither user's friends list already
contains the other, then Accept succeeds, and afterwards the requester's
id is in the accepter's friends, the accepter's id is in the requester's
friends, and no request entry from the requester remains in the
accepter's friendRequests. -/
theorem acceptRequest_pending_succeeds (s : UserState)
    (me requester : UserId) (meU rU : UserDoc) (fr : FriendRequest)
    (hne : me ≠ requester)
    (hme : s me = some meU) (hreq : s requester = some rU)
    (hfind : meU.friendRequests.find? (fun r => r.fromId = requester) = some fr)
    (hpend : fr.status = .pending)
    (h1 : requester ∉ meU.friends) (h2 : me ∉ rU.friends) :
    ∃ s', acceptRequest s me requester = .ok s' ∧
      (∃ u, s' me = some u ∧ requester ∈ u.friends ∧
        ∀ r ∈ u.friendRequests, r.fromId ≠ requester) ∧
      (∃ v, s' requester = some v ∧ me ∈ v.friends) := by
  refine ⟨setUser
      (setUser s me
        { meU with
          friends := meU.friends ++ [requester],
          friendRequests :=
            meU.friendRequests.filter (fun r => ¬ r.fromId = requester) })
      requester
      { rU with friends := rU.friends ++ [me] }, ?_, ?_, ?_⟩
  · unfold acceptRequest
    rw [hreq]
    simp [hme, hfind, hpend, h1, h2]
  · refine ⟨_, by rw [setUser_other _ _ hne, setUser_same], ?_, ?_⟩
    · simp
    · intro r hr
      have := List.of_mem_filter hr
      simpa using this
  · exact ⟨_, setUser_same _ _ _, by simp⟩

/-- C1 witness: the amended theorem applied to the concrete store where
user 0 holds a pending request from user 1 and nobody is friends yet. -/
theorem acceptRequest_pending_succeeds_witness :
    ∃ s', acceptRequest pendingPairState 0 1 = .ok s' ∧
      (∃ u, s' 0 = some u ∧ 1 ∈ u.friends ∧
        ∀ r ∈ u.friendRequests, r.fromId ≠ 1) ∧
      (∃ v, s' 1 = some v ∧ 0 ∈ v.friends) :=
  acceptRequest_pending_succeeds pendingPairState 0 1
    ⟨[], [⟨1, .pending⟩]⟩ ⟨[], []⟩ ⟨1, .pending⟩
    (by decide) rfl rfl (by decide) rfl (by decide) (by decide)

/-! ## C4 and C5: the scheduled-post publisher -/

/-- With no save failures the tick is a pointwise pass over the store:
due posts are published, everything else is returned as-is. -/
theorem publisherTickOk_eq_map (now : Nat) (posts : List PostDoc) :
    publisherTickOk now posts =
      posts.map (fun p => if isDue now p then publishPost now p else p) := by
  induction posts with
  | nil => rfl
  | cons p ps ih =>
    unfold publisherTickOk at ih ⊢
    unfold publisherTick
    by_cases hd : isDue now p <;> simp [hd, ih]

/-- C4: after one failure-free publisher tick, every post that was
status=scheduled with scheduledFor at or before the tick time is
status=published with publishedAt set to the tick time, and every post
that is not scheduled, or whose scheduledFor lies in the future, comes
out of the tick unchanged. -/
theorem publisherTick_publishes_due (now : Nat) (posts : List PostDoc) :
    publisherTickOk now posts =
      posts.map (fun p => if isDue now p then publishPost now p else p) ∧
    (∀ p, p.status = .scheduled → ∀ t, p.scheduledFor = some t → t ≤ now →
      (if isDue now p then publishPost now p else p).status = .published ∧
      (if isDue now p then publishPost now p else p).publishedAt = some now) ∧
    (∀ p, (p.status ≠ .scheduled ∨ ∀ t, p.scheduledFor = some t → now < t) →
      (if isDue now p then publishPost now p else p) = p) := by
  refine ⟨publisherTickOk_eq_map now posts, ?_, ?_⟩
  · intro p hs t ht hle
    have hd : isDue now p = true := by
      unfold isDue
      rw [ht, hs]
      simp [hle]
    rw [if_pos hd]
    exact ⟨rfl, rfl⟩
  · intro p hp
    have hd : isDue now p = false := by
      unfold isDue
      rcases hp with hs | hfut
      · simp [hs]
      · rcases hsf : p.scheduledFor with _ | t
        · simp
        · have := hfut t hsf
          simp [Nat.not_le.2 this]
    rw [hd]
    simp

/-- C4 witness: a tick at time 5 over a due scheduled post, a
future-scheduled post and a draft. -/
theorem publisherTick_publishes_due_witness :
    publisherTickOk 5
        [⟨1, .scheduled, some 3, none, [], 0⟩,
          ⟨2, .scheduled, some 9, none, [], 0⟩,
          ⟨3, .draft, none, none, [], 2⟩] =
      [⟨1, .published, some 3, some 5, [], 0⟩,
        ⟨2, .scheduled, some 9, none, [], 0⟩,
        ⟨3, .draft, none, none, [], 2⟩] ∧
    (if isDue 5 (⟨1, .scheduled, some 3, none, [], 0⟩ : PostDoc) then
        publishPost 5 ⟨1, .scheduled, some 3, none, [], 0⟩
      else ⟨1, .scheduled, some 3, none, [], 0⟩).status = .published ∧
    (if isDue 5 (⟨2, .scheduled, some 9, none, [], 0⟩ : PostDoc) then
        publishPost 5 ⟨2, .scheduled, some 9, none, [], 0⟩
      else ⟨2, .scheduled, some 9, none, [], 0⟩) =
      ⟨2, .scheduled, some 9, none, [], 0⟩ := by
  obtain ⟨h1, h2, h3⟩ := publisherTick_publishes_due 5
    [⟨1, .scheduled, some 3, none, [], 0⟩,
      ⟨2, .scheduled, some 9, none, [], 0⟩,
      ⟨3, .draft, none, none, [], 2⟩]
  refine ⟨by rw [h1]; decide, ?_, ?_⟩
  · exact (h2 ⟨1, .scheduled, some 3, none, [], 0⟩ rfl 3 rfl (by decide)).1
  · exact h3 ⟨2, .scheduled, some 9, none, [], 0⟩
      (Or.inr fun t ht => by simp at ht; omega)

/-- C5 (amended): within one tick the due posts are saved one by one
inside a single try/catch; if persisting one post fails, that post and
every post after it in the batch are left untouched for that tick (they
stay scheduled and are only retried on a later tick), while the posts
saved before the failure keep their published state. -/
theorem publisherTick_failure_aborts_batch (now : Nat) (fails : Nat → Bool)
    (l1 : List PostDoc) (p : PostDoc) (l2 : List PostDoc)
    (h1 : ∀ q ∈ l1, fails q.pid = false)
    (hdue : isDue now p = true) (hfail : fails p.pid = true) :
    publisherTick now fails (l1 ++ p :: l2) =
      l1.map (fun q => if isDue now q then publishPost now q else q) ++
        p :: l2 := by
  induction l1 with
  | nil =>
    simp only [List.nil_append, List.map_nil]
    unfold publisherTick
    rw [hdue, hfail]
    simp
  | cons q l1 ih =>
    have hq : fails q.pid = false := h1 q (List.mem_cons_self q l1)
    have ih2 := ih fun r hr => h1 r (List.mem_cons_of_mem q hr)
    simp only [List.cons_append, List.map_cons]
    unfold publisherTick
    by_cases hd : isDue now q <;> simp [hd, hq, ih2]

/-- C5 counterexample: two posts are due at tick time 5, the first save
fails, and the second post — which the claim says is still evaluated and
published — comes out of the tick still scheduled. -/
theorem publisherTick_failure_aborts_batch_cex :
    isDue 5 (⟨2, .scheduled, some 3, none, [], 0⟩ : PostDoc) = true ∧
    publisherTick 5 (fun pid => decide (pid = 1))
        [⟨1, .scheduled, some 3, none, [], 0⟩,
          ⟨2, .scheduled, some 3, none, [], 0⟩] =
      [⟨1, .scheduled, some 3, none, [], 0⟩,
        ⟨2, .scheduled, some 3, none, [], 0⟩] ∧
    (⟨2, .scheduled, some 3, none, [], 0⟩ : PostDoc).status ≠ .published := by
  decide

/-- C5 witness: the amended theorem applied with one successfully saved
post ahead of the failing one. -/
theorem publisherTick_failure_aborts_batch_witness :
    publisherTick 5 (fun pid => decide (pid = 1))
        ([⟨7, .scheduled, some 2, none, [], 0⟩] ++
          ⟨1, .scheduled, some 3, none, [], 0⟩ ::
            [⟨2, .scheduled, some 3, none, [], 0⟩]) =
      [⟨7, .scheduled, some 2, none, [], 0⟩].map
          (fun q => if isDue 5 q then publishPost 5 q else q) ++
        ⟨1, .scheduled, some 3, none, [], 0⟩ ::
          [⟨2, .scheduled, some 3, none, [], 0⟩] :=
  publisherTick_failure_aborts_batch 5 (fun pid => decide (pid = 1))
    [⟨7, .scheduled, some 2, none, [], 0⟩]
    ⟨1, .scheduled, some 3, none, [], 0⟩
    [⟨2, .scheduled, some 3, none, [], 0⟩]
    (by decide) (by decide) (by decide)

/-! ## C7: like toggling, and C10: single-post fetch -/

/-- Writing a document with the looked-up id back into the post list
makes it what find? by that id returns. -/
theorem find?_map_update {posts : List PostDoc} {pid : Nat}
    {post post' : PostDoc}
    (h : posts.find? (fun p => p.pid = pid) = some post)
    (hpid : post'.pid = pid) :
    (posts.map (fun q => if q.pid = pid then post' else q)).find?
      (fun p => p.pid = pid) = some post' := by
  induction posts with
  | nil => simp at h
  | cons r rs ih =>
    by_cases hr : r.pid = pid
    · simp only [List.map_cons, if_pos hr]
      exact List.find?_cons_of_pos _ (by simpa using hpid)
    · rw [List.find?_cons_of_neg _ (by simpa using hr)] at h
      simp only [List.map_cons, if_neg hr]
      rw [List.find?_cons_of_neg _ (by simpa using hr)]
      exact ih h

/-- Evaluation of the like route once the post has been found. -/
theorem likePost_eq_of_find? {posts : List PostDoc} {pid : Nat}
    {post : PostDoc}
    (h : posts.find? (fun p => p.pid = pid) = some post) (u : UserId) :
    likePost posts pid u =
      .ok (⟨(toggleLike u post.likes).1, (toggleLike u post.likes).2.length⟩,
        posts.map (fun q => if q.pid = pid then
          { post with likes := (toggleLike u post.likes).2 } else q)) := by
  unfold likePost
  rw [h]

/-- C7 (amended): for every post and every user who has NOT already liked
it, toggling like twice in succession returns the post to its original
likes state; the first response reports isLiked=true with likesCount one
above the original, the second reports isLiked=false with the original
likesCount — each single toggle returning the new boolean state and the
new count. -/
theorem toggleLike_twice_restores (posts : List PostDoc) (pid : Nat)
    (u : UserId) (post : PostDoc)
    (hfind : posts.find? (fun p => p.pid = pid) = some post)
    (hnot : u ∉ post.likes) :
    ∃ posts1, likePost posts pid u =
        .ok (⟨true, post.likes.length + 1⟩, posts1) ∧
      ∃ posts2, likePost posts1 pid u =
        .ok (⟨false, post.likes.length⟩, posts2) ∧
      posts2.find? (fun p => p.pid = pid) = some post := by
  have hpid : post.pid = pid := by simpa using List.find?_some hfind
  have h1 : toggleLike u post.likes = (true, post.likes ++ [u]) := by
    simp [toggleLike, hnot]
  have herase : (post.likes ++ [u]).erase u = post.likes := by
    rw [List.erase_append_right _ hnot]
    simp
  have h2 : toggleLike u (post.likes ++ [u]) = (false, post.likes) := by
    unfold toggleLike
    rw [if_pos (by simp), herase]
  have e1 := likePost_eq_of_find? hfind u
  rw [h1] at e1
  have hfind1 : (posts.map (fun q => if q.pid = pid then
      { post with likes := post.likes ++ [u] } else q)).find?
        (fun p => p.pid = pid) =
      some { post with likes := post.likes ++ [u] } :=
    find?_map_update hfind hpid
  have e2 := likePost_eq_of_find? hfind1 u
  rw [h2] at e2
  refine ⟨posts.map (fun q => if q.pid = pid then
      { post with likes := post.likes ++ [u] } else q), ?_,
    (posts.map (fun q => if q.pid = pid then
      { post with likes := post.likes ++ [u] } else q)).map
        (fun q => if q.pid = pid then post else q), ?_, ?_⟩
  · rw [e1]
    simp
  · rw [e2]
  · exact find?_map_update hfind1 hpid

/-- C7 counterexample: user 7 has already liked post 1; the first toggle
unlikes (isLiked=false), and the SECOND toggle — which the claim says
reports isLiked=false — re-likes and reports isLiked=true with the
original count. -/
theorem toggleLike_twice_restores_cex :
    likePost [⟨1, .published, none, some 0, [7], 3⟩] 1 7 =
      .ok (⟨false, 0⟩, [⟨1, .published, none, some 0, [], 3⟩]) ∧
    likePost [⟨1, .published, none, some 0, [], 3⟩] 1 7 =
      .ok (⟨true, 1⟩, [⟨1, .published, none, some 0, [7], 3⟩]) :=
  ⟨rfl, rfl⟩

/-- C7 witness: the amended theorem at a post user 7 has not liked. -/
theorem toggleLike_twice_restores_witness :
    ∃ posts1, likePost [⟨1, .published, none, some 0, [4], 3⟩] 1 7 =
        .ok (⟨true, 2⟩, posts1) ∧
      ∃ posts2, likePost posts1 1 7 = .ok (⟨false, 1⟩, posts2) ∧
      posts2.find? (fun p => p.pid = 1) =
        some ⟨1, .published, none, some 0, [4], 3⟩ :=
  toggleLike_twice_restores [⟨1, .published, none, some 0, [4], 3⟩] 1 7
    ⟨1, .published, none, some 0, [4], 3⟩ rfl (by decide)

/-- C10: fetching a single post by id checks nothing but existence: the
handler takes no caller identity at all, so for every stored post —
draft, scheduled or published alike — it returns the full post with its
view counter incremented by one and writes that increment back; a
missing id is the only NotFound case. -/
theorem getPost_no_authorization (posts : List PostDoc) (pid : Nat) :
    (posts.find? (fun p => p.pid = pid) = none →
      getPost posts pid = .error .postNotFound) ∧
    (∀ post, posts.find? (fun p => p.pid = pid) = some post →
      getPost posts pid =
        .ok ({ post with views := post.views + 1 },
          posts.map (fun q => if q.pid = pid then
            { post with views := post.views + 1 } else q)) ∧
      ({ post with views := post.views + 1 }).status = post.status ∧
      ({ post with views := post.views + 1 }).likes = post.likes) := by
  constructor
  · intro h
    unfold getPost
    rw [h]
  · intro post h
    refine ⟨?_, rfl, rfl⟩
    unfold getPost
    rw [h]

/-- C10 witness: a draft post is returned to an unauthenticated fetch
with its views bumped. -/
theorem getPost_no_authorization_witness :
    getPost [⟨4, .draft, none, none, [], 0⟩] 4 =
      .ok (⟨4, .draft, none, none, [], 1⟩,
        [⟨4, .draft, none, none, [], 1⟩]) := by
  have h := (getPost_no_authorization [⟨4, .draft, none, none, [], 0⟩] 4).2
    ⟨4, .draft, none, none, [], 0⟩ rfl
  rw [h.1]
  rfl

/-! ## C8: cancel is idempotent and unblocks resends -/

theorem setUser_idem (s : UserState) (id : UserId) (u : UserDoc) :
    setUser (setUser s id u) id u = setUser s id u := by
  funext x
  by_cases h : x = id <;> simp [setUser, h]

/-- Evaluation of the cancel route once the target has been found. -/
theorem cancelRequest_eq_of_some {s : UserState} {me target : UserId}
    {tU : UserDoc} (h : s target = some tU) :
    cancelRequest s me target = .ok (setUser s target
      { tU with friendRequests :=
          tU.friendRequests.filter (fun r => ¬ r.fromId = me) }) := by
  unfold cancelRequest
  rw [h]

/-- Evaluation of the send route when every check passes. -/
theorem sendRequest_ok_of {s : UserState} {me target : UserId}
    {tU meU : UserDoc}
    (hne : target ≠ me) (ht : s target = some tU) (hm : s me = some meU)
    (hf : target ∉ meU.friends)
    (hd : tU.friendRequests.any (fun r => r.fromId = me) = false) :
    sendRequest s me target = .ok (setUser s target
      { tU with friendRequests :=
          tU.friendRequests ++ [⟨me, .pending⟩] }) := by
  unfold sendRequest
  rw [if_neg hne, ht]
  simp [hm, hf, hd]

/-- Filtering out the requester's entries twice equals doing it once. -/
theorem filter_not_fromId_idem (l : List FriendRequest) (me : UserId) :
    (l.filter (fun r => ¬ r.fromId = me)).filter (fun r => ¬ r.fromId = me)
      = l.filter (fun r => ¬ r.fromId = me) := by
  simp [List.filter_filter]

/-- C8: for every requester and existing target, Cancel succeeds — even
with nothing to remove — and strips every request entry authored by the
requester from the target's friendRequests; cancelling a second time
leaves the store exactly as one cancel left it; and after a successful
send followed by a cancel, resending to the same target succeeds. -/
theorem cancelRequest_idempotent_resend (s : UserState)
    (me target : UserId) (tU : UserDoc) (ht : s target = some tU) :
    (∃ s', cancelRequest s me target = .ok s' ∧
      (∃ u, s' target = some u ∧ ∀ r ∈ u.friendRequests, r.fromId ≠ me) ∧
      cancelRequest s' me target = .ok s') ∧
    (∀ s1 s2, sendRequest s me target = .ok s1 →
      cancelRequest s1 me target = .ok s2 →
      ∃ s3, sendRequest s2 me target = .ok s3) := by
  constructor
  · refine ⟨setUser s target
      { tU with friendRequests :=
          tU.friendRequests.filter (fun r => ¬ r.fromId = me) },
      cancelRequest_eq_of_some ht, ?_, ?_⟩
    · refine ⟨_, setUser_same s target _, ?_⟩
      intro r hr
      simpa using (List.mem_filter.1 hr).2
    · rw [cancelRequest_eq_of_some (setUser_same s target _)]
      congr 1
      funext x
      by_cases hx : x = target
      · simp [setUser, hx, filter_not_fromId_idem]
      · simp [setUser, hx]
  · intro s1 s2 hsend hcancel
    obtain ⟨hne, tU0, meU, ht0, hm0, hnf, hany, hs1⟩ :=
      sendRequest_ok_inv hsend
    subst hs1
    rw [cancelRequest_eq_of_some (setUser_same s target _)] at hcancel
    simp only [Except.ok.injEq] at hcancel
    subst hcancel
    have hme : me ≠ target := fun hc => hne hc.symm
    refine ⟨_, sendRequest_ok_of hne (setUser_same _ _ _) ?_ hnf ?_⟩
    · rw [setUser_other _ _ hme, setUser_other _ _ hme]
      exact hm0
    · simp only [List.any_eq_false, decide_eq_true_eq]
      intro r hr
      simpa using (List.mem_filter.1 hr).2

/-- C8 witness: cancel and resend between users 0 and 1 where user 1
already holds a retained request entry from user 0. -/
theorem cancelRequest_idempotent_resend_witness :
    (∃ s', cancelRequest rejectedEntryState 0 1 = .ok s' ∧
      (∃ u, s' 1 = some u ∧ ∀ r ∈ u.friendRequests, r.fromId ≠ 0) ∧
      cancelRequest s' 0 1 = .ok s') ∧
    (∀ s1 s2, sendRequest rejectedEntryState 0 1 = .ok s1 →
      cancelRequest s1 0 1 = .ok s2 →
      ∃ s3, sendRequest s2 0 1 = .ok s3) :=
  cancelRequest_idempotent_resend rejectedEntryState 0 1
    ⟨[], [⟨0, .rejected⟩]⟩ rfl

/-! ## C9: message sending is gated on the sender's friends list only -/

/-- C9: with content that passes the validator and is non-empty after
trimming, sending a direct message fails with NotFound when the
recipient's record does not exist, fails with Forbidden when the
recipient is not in the sender's friends array, and succeeds — appending
a new unread message with the given sender, recipient and (trimmed)
content — exactly when the recipient exists and sits in the sender's
friends; the outcome never depends on the recipient's own document, so
swapping in any other recipient document changes nothing: the
friendship check reads the sender's side only.  Whitespace-only content
is the one further path: it slips past the validator but fails the
Message schema's required check inside create, answered as 500 with no
message stored. -/
theorem sendMessage_sender_side_check (s : UserState) (me : UserId)
    (meU : UserDoc) (target : UserId) (content : String)
    (msgs : List MessageDoc)
    (hval : ¬ (content = "" ∨ (trimContent content).length > 2000))
    (hne : trimContent content ≠ "") :
    (s target = none →
      sendMessage s me meU target content msgs = .error .recipientNotFound) ∧
    ((s target).isSome → target ∉ meU.friends →
      sendMessage s me meU target content msgs = .error .forbidden) ∧
    ((s target).isSome → target ∈ meU.friends →
      sendMessage s me meU target content msgs =
        .ok (msgs ++ [⟨me, target, (trimContent content), false⟩])) ∧
    (∀ tU', (s target).isSome →
      sendMessage (setUser s target tU') me meU target content msgs =
        sendMessage s me meU target content msgs) ∧
    (∀ c, c ≠ "" → trimContent c = "" →
      (s target).isSome → target ∈ meU.friends →
      sendMessage s me meU target c msgs = .error .serverError) := by
  refine ⟨?_, ?_, ?_, ?_, ?_⟩
  · intro h
    unfold sendMessage
    rw [if_neg hval, h]
  · intro hsome hnf
    rcases ht : s target with _ | tU
    · rw [ht] at hsome; simp at hsome
    · have hb : meU.friends.any (fun f => f = target) = false := by
        simp only [List.any_eq_false, decide_eq_true_eq]
        intro f hf hc
        exact hnf (hc ▸ hf)
      unfold sendMessage
      rw [if_neg hval, ht]
      simp [hb]
  · intro hsome hmem
    rcases ht : s target with _ | tU
    · rw [ht] at hsome; simp at hsome
    · have hb : meU.friends.any (fun f => f = target) = true := by
        simp only [List.any_eq_true, decide_eq_true_eq]
        exact ⟨target, hmem, rfl⟩
      unfold sendMessage
      rw [if_neg hval, ht]
      simp [hb, hne]
  · intro tU' hsome
    rcases ht : s target with _ | tU
    · rw [ht] at hsome; simp at hsome
    · unfold sendMessage
      rw [if_neg hval, if_neg hval, ht, setUser_same]
  · intro c hc0 hct hsome hmem
    rcases ht : s target with _ | tU
    · rw [ht] at hsome; simp at hsome
    · have hb : meU.friends.any (fun f => f = target) = true := by
        simp only [List.any_eq_true, decide_eq_true_eq]
        exact ⟨target, hmem, rfl⟩
      have hv : ¬ (c = "" ∨ (trimContent c).length > 2000) := by
        rw [hct]
        simp [hc0]
      unfold sendMessage
      rw [if_neg hv, ht]
      simp [hb, hct]

/-- C9 witness: a valid message between friends 0 and 1, sent into an
empty message store, against a store where only the sender lists the
friendship. -/
theorem sendMessage_sender_side_check_witness :
    sendMessage (fun id => if id ≤ 1 then some ⟨[], []⟩ else none) 0
        ⟨[1], []⟩ 1 "hi" [] = .ok [⟨0, 1, "hi", false⟩] := by
  rw [(sendMessage_sender_side_check
      (fun id => if id ≤ 1 then some ⟨[], []⟩ else none) 0
      ⟨[1], []⟩ 1 "hi" [] (by decide) (by decide)).2.2.1
      (by decide) (by decide)]
  rfl

/-! ## C6: friend-list symmetry is preserved by every operation -/

/-- The friends array of a user in the store ([] when absent). -/
def friendsOf (s : UserState) (x : UserId) : List UserId :=
  match s x with
  | some u => u.friends
  | none => []

/-- Friend-list symmetry: B is in A's friends iff A is in B's friends. -/
def FriendSym (s : UserState) : Prop :=
  ∀ a b : UserId, b ∈ friendsOf s a ↔ a ∈ friendsOf s b

theorem friendSym_of_imp {s : UserState}
    (h : ∀ a b, b ∈ friendsOf s a → a ∈ friendsOf s b) : FriendSym s :=
  fun a b => ⟨h a b, h b a⟩

theorem friendsOf_setUser (s : UserState) (id : UserId) (u : UserDoc)
    (x : UserId) :
    friendsOf (setUser s id u) x =
      if x = id then u.friends else friendsOf s x := by
  by_cases hx : x = id <;> simp [friendsOf, setUser, hx]

theorem friendsOf_eq_of_some {s : UserState} {x : UserId} {u : UserDoc}
    (h : s x = some u) : friendsOf s x = u.friends := by
  unfold friendsOf
  rw [h]

theorem friendSym_congr {s s' : UserState}
    (h : ∀ x, friendsOf s' x = friendsOf s x) (hs : FriendSym s) :
    FriendSym s' :=
  fun a b => by rw [h a, h b]; exact hs a b

/-- Writing back a document with an unchanged friends array leaves
every friendsOf untouched. -/
theorem friendsOf_setUser_keep {s : UserState} {id : UserId}
    {u u' : UserDoc} (h : s id = some u) (hf : u'.friends = u.friends)
    (x : UserId) : friendsOf (setUser s id u') x = friendsOf s x := by
  rw [friendsOf_setUser]
  by_cases hx : x = id
  · rw [if_pos hx, hf, hx, friendsOf_eq_of_some h]
  · rw [if_neg hx]

/-- Pushing each id into the other's friends — the accept write —
preserves symmetry. -/
theorem friendSym_accept {s : UserState} {me q : UserId} {rU meU : UserDoc}
    (hq : s q = some rU) (hm : s me = some meU) (F : List FriendRequest)
    (hs : FriendSym s) :
    FriendSym (setUser (setUser s me
      { meU with friends := meU.friends ++ [q], friendRequests := F }) q
      { rU with friends := rU.friends ++ [me] }) := by
  apply friendSym_of_imp
  intro a b hab
  rw [friendsOf_setUser, friendsOf_setUser] at hab
  rw [friendsOf_setUser, friendsOf_setUser]
  by_cases haq : a = q
  · subst haq
    rw [if_pos rfl] at hab
    by_cases hbq : b = a
    · subst hbq
      rw [if_pos rfl]
      exact hab
    · rw [if_neg hbq]
      by_cases hbm : b = me
      · subst hbm
        rw [if_pos rfl]
        exact List.mem_append_right _ (by simp)
      · rw [if_neg hbm]
        have hb : b ∈ rU.friends := by
          rcases List.mem_append.1 hab with h | h
          · exact h
          · exact absurd (by simpa using h) hbm
        have h2 : b ∈ friendsOf s a := by
          rw [friendsOf_eq_of_some hq]
          exact hb
        exact (hs a b).1 h2
  · rw [if_neg haq] at hab
    by_cases ham : a = me
    · subst ham
      rw [if_pos rfl] at hab
      by_cases hbq : b = q
      · subst hbq
        rw [if_pos rfl]
        exact List.mem_append_right _ (by simp)
      · rw [if_neg hbq]
        by_cases hbm : b = a
        · subst hbm
          rw [if_pos rfl]
          exact hab
        · rw [if_neg hbm]
          have hb : b ∈ meU.friends := by
            rcases List.mem_append.1 hab with h | h
            · exact h
            · exact absurd (by simpa using h) hbq
          have h2 : b ∈ friendsOf s a := by
            rw [friendsOf_eq_of_some hm]
            exact hb
          exact (hs a b).1 h2
    · rw [if_neg ham] at hab
      by_cases hbq : b = q
      · subst hbq
        rw [if_pos rfl]
        have h2 : a ∈ friendsOf s b := (hs a b).1 hab
        rw [friendsOf_eq_of_some hq] at h2
        exact List.mem_append_left _ h2
      · rw [if_neg hbq]
        by_cases hbm : b = me
        · subst hbm
          rw [if_pos rfl]
          have h2 : a ∈ friendsOf s b := (hs a b).1 hab
          rw [friendsOf_eq_of_some hm] at h2
          exact List.mem_append_left _ h2
        · rw [if_neg hbm]
          exact (hs a b).1 hab

/-- Filtering each id out of the other's friends — the remove-friend
write — preserves symmetry. -/
theorem friendSym_remove {s : UserState} {me t : UserId} {fU meU : UserDoc}
    (ht : s t = some fU) (hm : s me = some meU) (hs : FriendSym s) :
    FriendSym (setUser (setUser s me
      { meU with friends := meU.friends.filter (fun x => ¬ x = t) }) t
      { fU with friends := fU.friends.filter (fun x => ¬ x = me) }) := by
  have hmf : ∀ (w v : UserId) (l : List UserId),
      w ∈ l.filter (fun x => ¬ x = v) ↔ (w ∈ l ∧ ¬ w = v) := by
    intro w v l
    simp [List.mem_filter]
  apply friendSym_of_imp
  intro a b hab
  rw [friendsOf_setUser, friendsOf_setUser] at hab
  rw [friendsOf_setUser, friendsOf_setUser]
  by_cases hat : a = t
  · subst hat
    rw [if_pos rfl] at hab
    obtain ⟨hb1, hb2⟩ := (hmf b me fU.friends).1 hab
    by_cases hbt : b = a
    · subst hbt
      rw [if_pos rfl]
      exact (hmf b me fU.friends).2 ⟨hb1, hb2⟩
    · rw [if_neg hbt, if_neg hb2]
      have h2 : b ∈ friendsOf s a := by
        rw [friendsOf_eq_of_some ht]
        exact hb1
      exact (hs a b).1 h2
  · rw [if_neg hat] at hab
    by_cases ham : a = me
    · subst ham
      rw [if_pos rfl] at hab
      obtain ⟨hb1, hb2⟩ := (hmf b t meU.friends).1 hab
      rw [if_neg hb2]
      by_cases hbm : b = a
      · subst hbm
        rw [if_pos rfl]
        exact (hmf b t meU.friends).2 ⟨hb1, hb2⟩
      · rw [if_neg hbm]
        have h2 : b ∈ friendsOf s a := by
          rw [friendsOf_eq_of_some hm]
          exact hb1
        exact (hs a b).1 h2
    · rw [if_neg ham] at hab
      by_cases hbt : b = t
      · subst hbt
        rw [if_pos rfl]
        have h2 : a ∈ friendsOf s b := (hs a b).1 hab
        rw [friendsOf_eq_of_some ht] at h2
        exact (hmf a me fU.friends).2 ⟨h2, ham⟩
      · rw [if_neg hbt]
        by_cases hbm : b = me
        · subst hbm
          rw [if_pos rfl]
          have h2 : a ∈ friendsOf s b := (hs a b).1 hab
          rw [friendsOf_eq_of_some hm] at h2
          exact (hmf a t meU.friends).2 ⟨h2, hat⟩
        · rw [if_neg hbm]
          exact (hs a b).1 hab

/-- Success inversion for acceptRequest. -/
theorem acceptRequest_ok_inv {s : UserState} {me q : UserId}
    {s' : UserState} (h : acceptRequest s me q = .ok s') :
    ∃ rU meU, s q = some rU ∧ s me = some meU ∧
      s' = setUser (setUser s me
        { meU with
          friends := meU.friends ++ [q],
          friendRequests :=
            meU.friendRequests.filter (fun r => ¬ r.fromId = q) }) q
        { rU with friends := rU.friends ++ [me] } := by
  unfold acceptRequest at h
  rcases hq : s q with _ | rU
  · rw [hq] at h
    exact absurd h (by simp)
  · rw [hq] at h
    rcases hm : s me with _ | meU
    · rw [hm] at h
      exact absurd h (by simp)
    · rw [hm] at h
      rcases hf : meU.friendRequests.find? (fun r => r.fromId = q) with _ | fr
      · simp only [hf] at h
        exact absurd h (by simp)
      · simp only [hf] at h
        by_cases hp : fr.status ≠ .pending
        · simp [hp] at h
        · rw [if_neg hp] at h
          by_cases hfr : q ∈ meU.friends ∨ me ∈ rU.friends
          · simp [hfr] at h
          · rw [if_neg hfr] at h
            simp only [Except.ok.injEq] at h
            exact ⟨rU, meU, rfl, rfl, h.symm⟩

/-- Success inversion for rejectRequest. -/
theorem rejectRequest_ok_inv {s : UserState} {me q : UserId}
    {s' : UserState} (h : rejectRequest s me q = .ok s') :
    ∃ meU, s me = some meU ∧
      s' = setUser s me
        { meU with friendRequests := markRejected meU.friendRequests q } := by
  unfold rejectRequest at h
  rcases hm : s me with _ | meU
  · rw [hm] at h
    exact absurd h (by simp)
  · rw [hm] at h
    rcases hf : meU.friendRequests.find? (fun r => r.fromId = q) with _ | fr
    · simp only [hf] at h
      exact absurd h (by simp)
    · simp only [hf] at h
      by_cases hp : fr.status ≠ .pending
      · simp [hp] at h
      · rw [if_neg hp] at h
        simp only [Except.ok.injEq] at h
        exact ⟨meU, rfl, h.symm⟩

/-- Success inversion for cancelRequest. -/
theorem cancelRequest_ok_inv {s : UserState} {me t : UserId}
    {s' : UserState} (h : cancelRequest s me t = .ok s') :
    ∃ tU, s t = some tU ∧
      s' = setUser s t
        { tU with friendRequests :=
            tU.friendRequests.filter (fun r => ¬ r.fromId = me) } := by
  unfold cancelRequest at h
  rcases ht : s t with _ | tU
  · rw [ht] at h
    exact absurd h (by simp)
  · rw [ht] at h
    simp only [Except.ok.injEq] at h
    exact ⟨tU, rfl, h.symm⟩

/-- Success inversion for removeFriend. -/
theorem removeFriend_ok_inv {s : UserState} {me t : UserId}
    {s' : UserState} (h : removeFriend s me t = .ok s') :
    ∃ fU meU, s t = some fU ∧ s me = some meU ∧
      s' = setUser (setUser s me
        { meU with friends := meU.friends.filter (fun x => ¬ x = t) }) t
        { fU with friends := fU.friends.filter (fun x => ¬ x = me) } := by
  unfold removeFriend at h
  split at h
  · exact absurd h (by simp)
  · rename_i fU hfU
    split at h
    · exact absurd h (by simp)
    · rename_i meU hmU
      split at h
      · exact absurd h (by simp)
      · simp only [Except.ok.injEq] at h
        exact ⟨fU, meU, hfU, hmU, h.symm⟩

/-- One completed relationship operation of the friends router. -/
inductive FriendOp where
  | send (me target : UserId)
  | accept (me requester : UserId)
  | reject (me requester : UserId)
  | cancel (me target : UserId)
  | remove (me target : UserId)

/-- Run one operation against the store; a handler that answers an error
leaves the store untouched. -/
def runFriendOp (op : FriendOp) (s : UserState) : UserState :=
  match (match op with
    | .send me t => sendRequest s me t
    | .accept me r => acceptRequest s me r
    | .reject me r => rejectRequest s me r
    | .cancel me t => cancelRequest s me t
    | .remove me t => removeFriend s me t) with
  | .ok s' => s'
  | .error _ => s

/-- C6: starting from a symmetric store, any single completed
relationship operation — send, accept, reject, cancel or remove friend —
leaves the store symmetric: B is in A's friends iff A is in B's
friends. -/
theorem friendOps_preserve_symmetry (op : FriendOp) (s : UserState)
    (hs : FriendSym s) : FriendSym (runFriendOp op s) := by
  cases op with
  | send me t =>
    rcases h : sendRequest s me t with e | s'
    · simp only [runFriendOp, h]
      exact hs
    · simp only [runFriendOp, h]
      obtain ⟨hne, tU, meU, ht, hm, hnf, hd, hs'⟩ := sendRequest_ok_inv h
      subst hs'
      refine friendSym_congr (fun x => friendsOf_setUser_keep ht ?_ x) hs
      rfl
  | accept me r =>
    rcases h : acceptRequest s me r with e | s'
    · simp only [runFriendOp, h]
      exact hs
    · simp only [runFriendOp, h]
      obtain ⟨rU, meU, hq, hm, hs'⟩ := acceptRequest_ok_inv h
      subst hs'
      exact friendSym_accept hq hm _ hs
  | reject me r =>
    rcases h : rejectRequest s me r with e | s'
    · simp only [runFriendOp, h]
      exact hs
    · simp only [runFriendOp, h]
      obtain ⟨meU, hm, hs'⟩ := rejectRequest_ok_inv h
      subst hs'
      refine friendSym_congr (fun x => friendsOf_setUser_keep hm ?_ x) hs
      rfl
  | cancel me t =>
    rcases h : cancelRequest s me t with e | s'
    · simp only [runFriendOp, h]
      exact hs
    · simp only [runFriendOp, h]
      obtain ⟨tU, ht, hs'⟩ := cancelRequest_ok_inv h
      subst hs'
      refine friendSym_congr (fun x => friendsOf_setUser_keep ht ?_ x) hs
      rfl
  | remove me t =>
    rcases h : removeFriend s me t with e | s'
    · simp only [runFriendOp, h]
      exact hs
    · simp only [runFriendOp, h]
      obtain ⟨fU, meU, ht, hm, hs'⟩ := removeFriend_ok_inv h
      subst hs'
      exact friendSym_remove ht hm hs

/-- C6 witness: accepting the pending request of pendingPairState
(a symmetric store: all friends arrays empty) keeps symmetry. -/
theorem friendOps_preserve_symmetry_witness :
    FriendSym (runFriendOp (.accept 0 1) pendingPairState) := by
  apply friendOps_preserve_symmetry
  intro a b
  have h : ∀ x, friendsOf pendingPairState x = [] := by
    intro x
    unfold friendsOf pendingPairState
    by_cases h0 : x = 0
    · rw [if_pos h0]
    · rw [if_neg h0]
      by_cases h1 : x = 1
      · rw [if_pos h1]
      · rw [if_neg h1]
  rw [h a, h b]
  simp
